import Mathlib

/-!
Shallow embedding of the court_details_app case-resolution core (src/app.py):
the dataset indexer, the three-tier case resolver, the field-completion
helper, the lookup endpoint's record selection, and the download handler's
record selection.  Python dicts are modelled as insertion-ordered
association lists, JSON-ish values as the inductive type Jval, and pandas
rows as lists of (column, cell) string pairs (a NaN cell having been read
as the empty string, exactly as the loader does).
-/

namespace CourtApp

/-- JSON-like values: the shapes the app's records take (dicts of strings,
nested dicts, null, numbers, arrays). -/
inductive Jval where
  | jnull : Jval
  | jstr : String → Jval
  | jnum : Int → Jval
  | jobj : List (String × Jval) → Jval
  | jarr : List Jval → Jval

/-- Association-list lookup, first match wins (model of Python dict.get). -/
def alFind {α β : Type} [DecidableEq α] : List (α × β) → α → Option β
  | [], _ => none
  | (a, b) :: t, k => if a = k then some b else alFind t k

/-- Association-list write (model of Python dict assignment d[k] = v):
overwrite the first binding of the key in place, else append. -/
def alInsert {α β : Type} [DecidableEq α] : List (α × β) → α → β → List (α × β)
  | [], k, v => [(k, v)]
  | (a, b) :: t, k, v => if a = k then (k, v) :: t else (a, b) :: alInsert t k v

/-- Model of Python dict.setdefault: keep an existing binding (even a null
one), else append the default at the end. -/
def alSetdefault {α β : Type} [DecidableEq α] (l : List (α × β)) (k : α) (v : β) :
    List (α × β) :=
  match alFind l k with
  | some _ => l
  | none => l ++ [(k, v)]

/-- Field access on a Jval object. -/
def jGet (v : Jval) (k : String) : Option Jval :=
  match v with
  | .jobj fs => alFind fs k
  | _ => none

/-- Field access through an optional record. -/
def jGetOpt (o : Option Jval) (k : String) : Option Jval :=
  o.bind (fun v => jGet v k)

/-- Python truthiness of a value. -/
def jTruthy : Jval → Bool
  | .jnull => false
  | .jstr s => s ≠ ""
  | .jnum n => n ≠ 0
  | .jobj fs => !fs.isEmpty
  | .jarr l => !l.isEmpty

/-- Python test isinstance(d, dict) and d: a non-empty dict. -/
def jDictNonempty : Jval → Bool
  | .jobj fs => !fs.isEmpty
  | _ => false

/-- Python truthiness of an optional value (None is falsy). -/
def optJTruthy : Option Jval → Bool
  | some v => jTruthy v
  | none => false

/-- Python truthiness of an optional string (None and the empty string are
falsy). -/
def optTruthy : Option String → Bool
  | some s => s ≠ ""
  | none => false

/-- Python a or b on optional strings. -/
def pyOr (a b : Option String) : Option String :=
  if optTruthy a then a else b

/-- Python a or dflt coerced to a string, as in str(pet or Petitioner). -/
def pyOrD (a : Option String) (dflt : String) : String :=
  if optTruthy a then a.getD "" else dflt

/-- Python (maybe-missing string) or dflt, as in data.get(k) or dflt. -/
def pyOrStr (a : Option String) (dflt : String) : String :=
  match a with
  | some v => if v = "" then dflt else v
  | none => dflt

/-- ASCII lower-casing (model of Python str.lower on the app's data). -/
def pyLower (s : String) : String := ⟨s.data.map Char.toLower⟩

/-- ASCII upper-casing (model of Python str.upper on the app's data). -/
def pyUpper (s : String) : String := ⟨s.data.map Char.toUpper⟩

/-- Strip leading and trailing whitespace (model of Python str.strip). -/
def pyStrip (s : String) : String :=
  ⟨((s.data.dropWhile Char.isWhitespace).reverse.dropWhile Char.isWhitespace).reverse⟩

/-- Does the character list start with the pattern list. -/
def listStartsWith : List Char → List Char → Bool
  | [], _ => true
  | _ :: _, [] => false
  | a :: as, b :: bs => a == b && listStartsWith as bs

/-- Does the pattern occur as a contiguous run of the character list. -/
def listContainsSub (pat : List Char) : List Char → Bool
  | [] => pat.isEmpty
  | a :: t => listStartsWith pat (a :: t) || listContainsSub pat t

/-- Python sub in s substring test. -/
def pyContains (sub s : String) : Bool := listContainsSub sub.data s.data

/-- Model of Python str.title: upper-case every letter that follows a
non-letter, lower-case the other letters. -/
def pyTitleAux : Bool → List Char → List Char
  | _, [] => []
  | prevAlpha, c :: t =>
      (if c.isAlpha then (if prevAlpha then c.toLower else c.toUpper) else c) ::
        pyTitleAux c.isAlpha t

/-- Python str.title. -/
def pyTitle (s : String) : String := ⟨pyTitleAux false s.data⟩

/-- The manual override record for case 8152, verbatim from OVERRIDE_CASES
in src/app.py. -/
def override8152 : Jval :=
  .jobj [("parties", .jstr "Alice Sharma vs State of Odisha"),
         ("filing_date", .jstr "2020"),
         ("next_hearing", .jstr "2025-11-15"),
         ("status", .jstr "Disposed"),
         ("raw_source", .jobj [("url", .jstr "https://ndap.niti.gov.in")]),
         ("sample_data", .jobj
           [("Rowid", .jstr "4"), ("Country", .jstr "India"),
            ("State lgd code", .jstr "21"), ("State", .jstr "Odisha"),
            ("Year", .jstr "2020"), ("Sector", .jstr "Agriculture"),
            ("District", .jstr "Khordha"), ("Gender", .jstr "Male"),
            ("Category", .jstr "Rural")])]

/-- OVERRIDE_CASES from src/app.py: the manual override table. -/
def OVERRIDE_CASES : List (Nat × Jval) := [(8152, override8152)]

/-- Model of the helper named with a leading underscore as error in
src/app.py (lines 140-143): the synthesized error-shaped record. -/
def asError (msg : String) (whr : String) : Jval :=
  .jobj [("parties", .jstr "N/A"), ("filing_date", .jstr "N/A"),
         ("next_hearing", .jstr "N/A"), ("status", .jstr "Error"),
         ("error", .jobj [("where", .jstr whr), ("message", .jstr msg)]),
         ("raw_source", .jobj [("url", .jstr "")])]

/-- Model of the field-completion helper in src/app.py (lines 145-151):
a non-dict or empty input is replaced with the server error record, then
each of the five keys is setdefault-ed. -/
def ensureMinFields (details : Jval) : Jval :=
  let d := if jDictNonempty details then details
           else asError "Empty response" "server"
  match d with
  | .jobj fs =>
      .jobj (alSetdefault (alSetdefault (alSetdefault (alSetdefault (alSetdefault
        fs "parties" (.jstr "N/A")) "filing_date" (.jstr "N/A"))
        "next_hearing" (.jstr "N/A")) "status" (.jstr "N/A"))
        "raw_source" (.jobj [("url", .jstr "")]))
  | other => other

/-- One Python dict lookup chain data.get(k) or data.get(k.title()) or
data.get(k.upper()), as the parties heuristic performs it. -/
def tripleGet (data : List (String × String)) (k : String) : Option String :=
  pyOr (pyOr (alFind data k) (alFind data (pyTitle k))) (alFind data (pyUpper k))

/-- The direct-title loop of the parties heuristic in src/app.py
(lines 190-194): for each candidate name, look the name up through its
three case variants and return the stripped value when it is truthy and
non-blank, else move to the next name. -/
def firstTitleHitAux (data : List (String × String)) : List String → Option String
  | [] => none
  | k :: t =>
      match tripleGet data k with
      | some v => if v ≠ "" ∧ pyStrip v ≠ "" then some (pyStrip v) else firstTitleHitAux data t
      | none => firstTitleHitAux data t

/-- The candidate title-like column names, in the source's order. -/
def titleKeys : List String := ["case_title", "title", "parties", "case name", "case_name"]

/-- Model of the parties heuristic in src/app.py (lines 180-205): direct
title-like columns, else petitioner/respondent, else plaintiff/defendant,
else none. -/
def bestPartiesFromRow (data : List (String × String)) : Option String :=
  if data.isEmpty then none
  else
    match firstTitleHitAux data titleKeys with
    | some t => some t
    | none =>
      let pet := tripleGet data "petitioner"
      let res := tripleGet data "respondent"
      if optTruthy pet || optTruthy res then
        some (pyStrip (pyOrD pet "Petitioner") ++ " vs " ++ pyStrip (pyOrD res "Respondent"))
      else
        let pl := tripleGet data "plaintiff"
        let df := tripleGet data "defendant"
        if optTruthy pl || optTruthy df then
          some (pyStrip (pyOrD pl "Plaintiff") ++ " vs " ++ pyStrip (pyOrD df "Defendant"))
        else none

/-- One stored DATASET_ROWS entry, mirroring the dict built at line 229 of
src/app.py. -/
structure RowRec where
  dataset_code : Nat
  row_index : Nat
  data : List (String × String)
  year_col : Option String
deriving Repr, DecidableEq

/-- One successfully parsed report file: the dataset code taken from the
file name, the column names, and the cell grid (a missing cell already
read as the empty string, as line 228 of src/app.py does). -/
structure ParsedDataset where
  code : Nat
  cols : List String
  cells : List (List String)
deriving Repr, DecidableEq

/-- The three in-memory tables DATASET_ROWS, CASE_INDEX and
DATASET_SUMMARY of src/app.py, plus the running row total the loader
returns. -/
structure IndexState where
  rows : List ((Nat × Nat) × RowRec)
  caseIndex : List (Nat × (Nat × Nat))
  summary : List (Nat × Nat)
  total : Nat
deriving Repr, DecidableEq

/-- The empty tables. -/
def emptyIndexState : IndexState := ⟨[], [], [], 0⟩

/-- Is a column name a year column: Python "year" in c.lower(), line 226
of src/app.py. -/
def isYearCol (c : String) : Bool := pyContains "year" (pyLower c)

/-- The per-row body of the loader loop (lines 227-231 of src/app.py):
store the row record, register the dataset code at row 0, and register
code + row_index. -/
def rowStep (code : Nat) (cols : List String) (yearCol : Option String)
    (s : IndexState) (i : Nat) (cellsRow : List String) : IndexState :=
  let rowDict := cols.zip cellsRow
  let s1 : IndexState :=
    { s with rows := alInsert s.rows (code, i) ⟨code, i, rowDict, yearCol⟩ }
  let ci := if i = 0 then alInsert s1.caseIndex code (code, 0) else s1.caseIndex
  { s1 with caseIndex := alInsert ci (code + i) (code, i) }

/-- The loader's row iteration with its running index (for idx, row in
df.iterrows()). -/
def indexRows (code : Nat) (cols : List String) (yearCol : Option String) :
    Nat → List (List String) → IndexState → IndexState
  | _, [], s => s
  | i, r :: t, s => indexRows code cols yearCol (i + 1) t (rowStep code cols yearCol s i r)

/-- The loader's treatment of one parsed dataset (lines 223-231 of
src/app.py): skip it when empty, else record its row count in the summary,
add it to the total, detect the year column, and index every row. -/
def processDataset (s : IndexState) (d : ParsedDataset) : IndexState :=
  if d.cells.isEmpty then s
  else
    let n := d.cells.length
    let yearCol := d.cols.find? (fun c => isYearCol c)
    let s1 : IndexState :=
      { s with summary := alInsert s.summary d.code n, total := s.total + n }
    indexRows d.code d.cols yearCol 0 d.cells s1

/-- Model of the loader in src/app.py (lines 207-233) over the ordered
list of parsed datasets: clear the three tables, then scan every dataset
in order.  The state's total field is the loader's return value. -/
def loadNdapDatasets (s : IndexState) (ds : List ParsedDataset) : IndexState :=
  let cleared : IndexState := { s with rows := [], caseIndex := [], summary := [], total := 0 }
  ds.foldl processDataset cleared

/-- The record derived from a dataset row (lines 247-261 of src/app.py). -/
def deriveRecord (code idx : Nat) (data : List (String × String))
    (yearCol : Option String) : Jval :=
  let partiesName :=
    (bestPartiesFromRow data).getD ("Case " ++ toString code ++ "-" ++ toString idx)
  .jobj [("parties", .jstr partiesName),
         ("filing_date", .jstr (match yearCol with
            | some yc => if yc = "" then "N/A" else pyOrStr (alFind data yc) "N/A"
            | none => "N/A")),
         ("next_hearing", .jstr (pyOrStr (alFind data "next_hearing") "N/A")),
         ("status", .jstr (pyOrStr (alFind data "status") "From NDAP Dataset")),
         ("raw_source", .jobj [("url", .jstr "https://ndap.niti.gov.in")]),
         ("sample_data", .jobj ((data.take 5).map (fun p => (p.1, .jstr p.2))))]

/-- Model of the case resolver in src/app.py (lines 235-262): the manual
override table first, then the CSV-backed case index, else none. -/
def datasetLookupByCase (s : IndexState) (caseNumber : Nat) : Option Jval :=
  match alFind OVERRIDE_CASES caseNumber with
  | some r => some r
  | none =>
    match alFind s.caseIndex caseNumber with
    | none => none
    | some (code, idx) =>
      match alFind s.rows (code, idx) with
      | some row => some (deriveRecord code idx row.data row.year_col)
      | none => some (deriveRecord code idx [] none)

/-- The optional live scraper as the resolver sees it: missing at import
time, returning a value, or raising. -/
inductive FetchOutcome where
  | unavailable : FetchOutcome
  | ok : Jval → FetchOutcome
  | raises : String → FetchOutcome

/-- The validated lookup request body (class CaseQuery in src/app.py). -/
structure CaseQuery where
  case_type : String
  case_number : Nat
  year : Int
  court_level : String

/-- The fixed mock record the lookup endpoint synthesizes (lines 304-308
of src/app.py), parameterized by the request's case_type. -/
def mockRecord (caseType : String) : Jval :=
  .jobj [("parties", .jstr (caseType ++ " Demo: Alice vs Bob")),
         ("filing_date", .jstr "2023-07-18"),
         ("next_hearing", .jstr "2025-10-10"),
         ("status", .jstr "Listed"),
         ("raw_source", .jobj [("url", .jstr "https://services.ecourts.gov.in")])]

/-- The record-selection stage of the lookup endpoint (lines 299-320 of
src/app.py): resolver result when truthy (tag dataset), else mock record
(tag mock), else the live path with every failure converted to an
error-shaped record (tag live). -/
def resolveForLookup (s : IndexState) (useMock : Bool) (fetch : FetchOutcome)
    (q : CaseQuery) : Jval × Option String :=
  let details := datasetLookupByCase s q.case_number
  if optJTruthy details then (details.getD .jnull, some "dataset")
  else if useMock then (mockRecord q.case_type, some "mock")
  else
    match fetch with
    | .unavailable => (asError "scraper not available" "import", some "live")
    | .ok d =>
        (if jDictNonempty d then d else asError "Unexpected scraper response" "scraper",
         some "live")
    | .raises m => (asError m "exception", some "live")

/-- The lookup endpoint's response envelope (lines 343-351 of src/app.py):
echoed input, the completed record, the source tag, and the two document
references. -/
def lookupCase (s : IndexState) (useMock : Bool) (fetch : FetchOutcome)
    (q : CaseQuery) : Jval :=
  let r := resolveForLookup s useMock fetch q
  let details := ensureMinFields r.1
  let jname := "judgment_" ++ toString q.case_number ++ ".pdf"
  .jobj [("input", .jobj [("case_type", .jstr q.case_type),
                          ("case_number", .jnum (Int.ofNat q.case_number)),
                          ("year", .jnum q.year),
                          ("court_level", .jstr q.court_level)]),
         ("parsed", details),
         ("source", match r.2 with | some t => .jstr t | none => .jnull),
         ("documents", .jarr
           [.jobj [("kind", .jstr "judgment"), ("file_name", .jstr jname),
                   ("download_url", .jstr ("/dl/file/" ++ jname))],
            .jobj [("kind", .jstr "cause_list"),
                   ("file_name", .jstr "cause_list_demo.pdf"),
                   ("download_url", .jstr "/dl/file/cause_list_demo.pdf")]])]

/-- The record the download handler renders into a regenerated judgment
document (lines 369-382 of src/app.py): resolver result when truthy, else
a fixed CIVIL mock record when mock mode is on, else a server error
record.  Note the mock record here is a literal, not parameterized by any
case_type. -/
def dlJudgmentDetails (s : IndexState) (useMock : Bool) (num : Nat) : Jval :=
  let details := datasetLookupByCase s num
  if optJTruthy details then details.getD .jnull
  else if useMock then
    .jobj [("parties", .jstr "CIVIL Demo: Alice vs Bob"),
           ("filing_date", .jstr "2023-07-18"),
           ("next_hearing", .jstr "2025-10-10"),
           ("status", .jstr "Listed"),
           ("raw_source", .jobj [("url", .jstr "https://services.ecourts.gov.in")])]
  else asError "No dataset/mocked details available" "server"

end CourtApp


namespace CourtApp

/-! ### Association-list lemmas -/

theorem alFind_alInsert {α β : Type} [DecidableEq α] (l : List (α × β)) (k k' : α) (v : β) :
    alFind (alInsert l k v) k' = if k = k' then some v else alFind l k' := by
  induction l with
  | nil => simp [alInsert, alFind]
  | cons hd t ih =>
      obtain ⟨a, b⟩ := hd
      by_cases hak : a = k
      · subst hak
        by_cases h : a = k' <;> simp [alInsert, alFind, h]
      · simp only [alInsert, if_neg hak]
        by_cases h1 : a = k'
        · have h2 : k ≠ k' := fun hh => hak (h1.trans hh.symm)
          simp [alFind, h1, h2]
        · simp only [alFind, if_neg h1]
          exact ih

theorem alFind_append_of_some {α β : Type} [DecidableEq α] (l l2 : List (α × β)) (k : α)
    (b : β) (h : alFind l k = some b) : alFind (l ++ l2) k = some b := by
  induction l with
  | nil => simp [alFind] at h
  | cons hd t ih =>
      obtain ⟨a, c⟩ := hd
      by_cases hak : a = k
      · simp [alFind, hak] at h ⊢; exact h
      · simp [alFind, hak] at h ⊢; exact ih h

theorem alFind_append_of_none {α β : Type} [DecidableEq α] (l l2 : List (α × β)) (k : α)
    (h : alFind l k = none) : alFind (l ++ l2) k = alFind l2 k := by
  induction l with
  | nil => rfl
  | cons hd t ih =>
      obtain ⟨a, c⟩ := hd
      by_cases hak : a = k
      · simp [alFind, hak] at h
      · simp [alFind, hak] at h ⊢; exact ih h

theorem alFind_alSetdefault_self {α β : Type} [DecidableEq α] (l : List (α × β)) (k : α)
    (v : β) : alFind (alSetdefault l k v) k = some ((alFind l k).getD v) := by
  unfold alSetdefault
  cases h : alFind l k with
  | some b => simp [h]
  | none => rw [alFind_append_of_none _ _ _ h]; simp [alFind]

theorem alFind_alSetdefault_ne {α β : Type} [DecidableEq α] (l : List (α × β)) (k k' : α)
    (v : β) (h : k ≠ k') : alFind (alSetdefault l k v) k' = alFind l k' := by
  unfold alSetdefault
  cases hf : alFind l k with
  | some b => rfl
  | none =>
      cases hf' : alFind l k' with
      | some b => exact alFind_append_of_some _ _ _ _ hf'
      | none => rw [alFind_append_of_none _ _ _ hf']; simp [alFind, h]

theorem alInsert_of_find_none {α β : Type} [DecidableEq α] (l : List (α × β)) (k : α)
    (v : β) (h : alFind l k = none) : alInsert l k v = l ++ [(k, v)] := by
  induction l with
  | nil => rfl
  | cons hd t ih =>
      obtain ⟨a, b⟩ := hd
      by_cases hak : a = k
      · simp [alFind, hak] at h
      · simp [alFind, hak] at h; simp [alInsert, hak, ih h]

end CourtApp

namespace CourtApp

/-! ### Index-build lemmas -/

theorem rowStep_caseIndex (code : Nat) (cols : List String) (yc : Option String)
    (s : IndexState) (i : Nat) (r : List String) (k : Nat) :
    alFind (rowStep code cols yc s i r).caseIndex k =
      if code + i = k then some (code, i) else alFind s.caseIndex k := by
  by_cases hi : i = 0
  · subst hi
    simp only [rowStep, alFind_alInsert, if_pos rfl, Nat.add_zero]
    by_cases hc : code = k <;> simp [hc, alFind_alInsert]
  · simp only [rowStep, if_neg hi, alFind_alInsert]

theorem rowStep_summary (code : Nat) (cols : List String) (yc : Option String)
    (s : IndexState) (i : Nat) (r : List String) :
    (rowStep code cols yc s i r).summary = s.summary := rfl

theorem rowStep_total (code : Nat) (cols : List String) (yc : Option String)
    (s : IndexState) (i : Nat) (r : List String) :
    (rowStep code cols yc s i r).total = s.total := rfl

theorem indexRows_summary (code : Nat) (cols : List String) (yc : Option String) :
    ∀ (rows : List (List String)) (j : Nat) (s : IndexState),
      (indexRows code cols yc j rows s).summary = s.summary := by
  intro rows
  induction rows with
  | nil => intro j s; rfl
  | cons r t ih => intro j s; simp only [indexRows]; rw [ih, rowStep_summary]

theorem indexRows_total (code : Nat) (cols : List String) (yc : Option String) :
    ∀ (rows : List (List String)) (j : Nat) (s : IndexState),
      (indexRows code cols yc j rows s).total = s.total := by
  intro rows
  induction rows with
  | nil => intro j s; rfl
  | cons r t ih => intro j s; simp only [indexRows]; rw [ih, rowStep_total]

theorem indexRows_caseIndex_miss (code : Nat) (cols : List String) (yc : Option String) :
    ∀ (rows : List (List String)) (j : Nat) (s : IndexState) (k : Nat),
      (∀ i, j ≤ i → i < j + rows.length → code + i ≠ k) →
      alFind (indexRows code cols yc j rows s).caseIndex k = alFind s.caseIndex k := by
  intro rows
  induction rows with
  | nil => intro j s k _; rfl
  | cons r t ih =>
      intro j s k h
      have hlen : (r :: t).length = t.length + 1 := rfl
      simp only [indexRows]
      rw [ih (j + 1) _ k (fun i hi1 hi2 => h i (by omega) (by omega)),
        rowStep_caseIndex]
      have : code + j ≠ k := h j le_rfl (by omega)
      simp [this]

theorem indexRows_caseIndex_hit (code : Nat) (cols : List String) (yc : Option String) :
    ∀ (rows : List (List String)) (j i : Nat) (s : IndexState),
      j ≤ i → i < j + rows.length →
      alFind (indexRows code cols yc j rows s).caseIndex (code + i) = some (code, i) := by
  intro rows
  induction rows with
  | nil => intro j i s h1 h2; simp at h2; omega
  | cons r t ih =>
      intro j i s h1 h2
      simp only [indexRows]
      have hlen : (r :: t).length = t.length + 1 := rfl
      rcases Nat.eq_or_lt_of_le h1 with heq | hlt
      · subst heq
        rw [indexRows_caseIndex_miss code cols yc t (j + 1) _ (code + j)
          (fun i' hi1 _ => by omega), rowStep_caseIndex]
        simp
      · exact ih (j + 1) i _ hlt (by omega)

/-- Does a dataset's sequential-assignment range cover a case-index key. -/
def coversKey (d : ParsedDataset) (k : Nat) : Prop :=
  d.cells ≠ [] ∧ d.code ≤ k ∧ k < d.code + d.cells.length

theorem processDataset_caseIndex_hit (s : IndexState) (d : ParsedDataset) (i : Nat)
    (h : i < d.cells.length) :
    alFind (processDataset s d).caseIndex (d.code + i) = some (d.code, i) := by
  have hne : ¬ d.cells.isEmpty = true := by
    cases hc : d.cells with
    | nil => rw [hc] at h; simp at h
    | cons a t => simp
  rw [processDataset, if_neg hne]
  exact indexRows_caseIndex_hit d.code d.cols _ d.cells 0 i _ (Nat.zero_le i) (by omega)

theorem processDataset_caseIndex_miss (s : IndexState) (d : ParsedDataset) (k : Nat)
    (h : ¬ coversKey d k) :
    alFind (processDataset s d).caseIndex k = alFind s.caseIndex k := by
  by_cases hc : d.cells.isEmpty
  · rw [processDataset, if_pos hc]
  · rw [processDataset, if_neg hc]
    have hcells : d.cells ≠ [] := by
      cases hcl : d.cells
      · rw [hcl] at hc; simp at hc
      · simp
    rw [indexRows_caseIndex_miss d.code d.cols _ d.cells 0 _ k ?hmiss]
    case hmiss =>
      intro i _ hi2 hk
      exact h ⟨hcells, by omega, by omega⟩

theorem foldl_caseIndex_miss (l : List ParsedDataset) :
    ∀ (s : IndexState) (k : Nat), (∀ d ∈ l, ¬ coversKey d k) →
      alFind (l.foldl processDataset s).caseIndex k = alFind s.caseIndex k := by
  induction l with
  | nil => intro s k _; rfl
  | cons d t ih =>
      intro s k h
      rw [List.foldl_cons, ih _ k (fun e he => h e (List.mem_cons_of_mem d he)),
        processDataset_caseIndex_miss s d k (h d (List.mem_cons_self d t))]

/-- Total row count of a list of parsed datasets, empty ones skipped. -/
def rowsCount (ds : List ParsedDataset) : Nat :=
  (ds.map (fun d => if d.cells.isEmpty then 0 else d.cells.length)).sum

theorem processDataset_total (s : IndexState) (d : ParsedDataset) :
    (processDataset s d).total =
      s.total + (if d.cells.isEmpty then 0 else d.cells.length) := by
  by_cases hc : d.cells.isEmpty
  · rw [processDataset, if_pos hc, if_pos hc]; omega
  · rw [processDataset, if_neg hc, if_neg hc, indexRows_total]

theorem foldl_total (l : List ParsedDataset) :
    ∀ s : IndexState, (l.foldl processDataset s).total = s.total + rowsCount l := by
  induction l with
  | nil => intro s; simp [rowsCount]
  | cons d t ih =>
      intro s
      rw [List.foldl_cons, ih, processDataset_total]
      simp [rowsCount]
      omega

/-- Sum of the values of the per-dataset summary table. -/
def sumVals (l : List (Nat × Nat)) : Nat := (l.map (fun p => p.2)).sum

/-- The dataset codes of the non-empty parsed datasets, in scan order. -/
def nonemptyCodes (ds : List ParsedDataset) : List Nat :=
  (ds.filter (fun d => !d.cells.isEmpty)).map (fun d => d.code)

theorem sumVals_append (l : List (Nat × Nat)) (k v : Nat) :
    sumVals (l ++ [(k, v)]) = sumVals l + v := by
  simp [sumVals]

theorem processDataset_summary (s : IndexState) (d : ParsedDataset)
    (hc : ¬ d.cells.isEmpty = true) :
    (processDataset s d).summary = alInsert s.summary d.code d.cells.length := by
  rw [processDataset, if_neg hc, indexRows_summary]

theorem foldl_summary_sum (l : List ParsedDataset) :
    ∀ s : IndexState, (nonemptyCodes l).Nodup →
      (∀ c ∈ nonemptyCodes l, alFind s.summary c = none) →
      sumVals (l.foldl processDataset s).summary = sumVals s.summary + rowsCount l := by
  induction l with
  | nil => intro s _ _; simp [rowsCount]
  | cons d t ih =>
      intro s hnd hfresh
      by_cases hc : d.cells.isEmpty
      · have hps : processDataset s d = s := by rw [processDataset, if_pos hc]
        have hco : nonemptyCodes (d :: t) = nonemptyCodes t := by
          simp [nonemptyCodes, hc]
        rw [hco] at hnd hfresh
        rw [List.foldl_cons, hps, ih s hnd hfresh]
        have hnil : d.cells = [] := by simpa using hc
        simp [rowsCount, hnil]
      · have hco : nonemptyCodes (d :: t) = d.code :: nonemptyCodes t := by
          simp [nonemptyCodes, hc]
        rw [hco] at hnd hfresh
        have hfd : alFind s.summary d.code = none :=
          hfresh d.code (List.mem_cons_self _ _)
        have hsumm : (processDataset s d).summary =
            s.summary ++ [(d.code, d.cells.length)] := by
          rw [processDataset_summary s d hc, alInsert_of_find_none _ _ _ hfd]
        have hnd' : (nonemptyCodes t).Nodup := (List.nodup_cons.mp hnd).2
        have hfresh' : ∀ c ∈ nonemptyCodes t,
            alFind (processDataset s d).summary c = none := by
          intro c hct
          have hcne : ¬ d.code = c := by
            intro he
            exact (List.nodup_cons.mp hnd).1 (he ▸ hct)
          rw [hsumm, alFind_append_of_none _ _ _ (hfresh c (List.mem_cons_of_mem _ hct))]
          simp [alFind, hcne]
        rw [List.foldl_cons, ih _ hnd' hfresh', hsumm, sumVals_append]
        have hnil : d.cells ≠ [] := by simpa using hc
        simp [rowsCount, hnil]
        omega

end CourtApp

namespace CourtApp

/-! ### Field-completion lemmas and spec-side parties definitions -/

theorem ensureMinFields_obj (fs : List (String × Jval)) (h : fs ≠ []) :
    ensureMinFields (.jobj fs) =
      .jobj (alSetdefault (alSetdefault (alSetdefault (alSetdefault (alSetdefault
        fs "parties" (.jstr "N/A")) "filing_date" (.jstr "N/A"))
        "next_hearing" (.jstr "N/A")) "status" (.jstr "N/A"))
        "raw_source" (.jobj [("url", .jstr "")])) := by
  have hne : jDictNonempty (.jobj fs) = true := by simp [jDictNonempty, h]
  simp [ensureMinFields, hne]

/-- First hit of an option-valued function over a list, in order. -/
def firstSomeOf {α β : Type} (f : α → Option β) : List α → Option β
  | [] => none
  | a :: t =>
      match f a with
      | some b => some b
      | none => firstSomeOf f t

/-- The claim's title step for the parties heuristic, taken literally:
among the case variants of the title-like names, in order, the first
column whose value is non-empty supplies the parties string; else the
petitioner/respondent pair with the literal word substituted for a missing
side; else the plaintiff/defendant pair likewise; else nothing (the caller
substitutes the placeholder). -/
def partiesClaimedSpec (data : List (String × String)) : Option String :=
  match firstSomeOf
      (fun k => match alFind data k with
        | some v => if v ≠ "" then some v else none
        | none => none)
      ((titleKeys.map (fun name => [name, pyTitle name, pyUpper name])).flatten) with
  | some t => some t
  | none =>
    let pet := tripleGet data "petitioner"
    let res := tripleGet data "respondent"
    match pet, res with
    | none, none =>
      let pl := tripleGet data "plaintiff"
      let df := tripleGet data "defendant"
      match pl, df with
      | none, none => none
      | _, _ =>
          some ((pl.getD "Plaintiff") ++ " vs " ++ (df.getD "Defendant"))
    | _, _ =>
        some ((pet.getD "Petitioner") ++ " vs " ++ (res.getD "Respondent"))

/-- The parties heuristic as the amended claim words it: among the
title-like names in fixed order, each looked up through its exact,
Title-case and UPPER-case spellings with the first non-empty spelling
winning, the first name whose looked-up value is non-blank after stripping
contributes its stripped value (a name whose looked-up value is non-empty
but all-whitespace is passed over without consulting later spellings of
that name); else a petitioner-vs-respondent pair when either side is
non-empty, the stripped value with the word Petitioner or Respondent
substituted for an absent or empty side; else likewise for
plaintiff/defendant; else nothing, and the caller substitutes the
placeholder string built from the dataset code and row index. -/
def partiesAmendedSpec (data : List (String × String)) : Option String :=
  match firstSomeOf
      (fun name =>
        match tripleGet data name with
        | some v => if v ≠ "" ∧ pyStrip v ≠ "" then some (pyStrip v) else none
        | none => none)
      titleKeys with
  | some t => some t
  | none =>
    if optTruthy (tripleGet data "petitioner") || optTruthy (tripleGet data "respondent") then
      some (pyStrip (pyOrD (tripleGet data "petitioner") "Petitioner") ++ " vs " ++
            pyStrip (pyOrD (tripleGet data "respondent") "Respondent"))
    else if optTruthy (tripleGet data "plaintiff") || optTruthy (tripleGet data "defendant") then
      some (pyStrip (pyOrD (tripleGet data "plaintiff") "Plaintiff") ++ " vs " ++
            pyStrip (pyOrD (tripleGet data "defendant") "Defendant"))
    else none

theorem firstTitleHitAux_eq (data : List (String × String)) :
    ∀ keys : List String, firstTitleHitAux data keys = firstSomeOf
      (fun name =>
        match tripleGet data name with
        | some v => if v ≠ "" ∧ pyStrip v ≠ "" then some (pyStrip v) else none
        | none => none)
      keys := by
  intro keys
  induction keys with
  | nil => rfl
  | cons k t ih =>
      simp only [firstTitleHitAux, firstSomeOf]
      cases h : tripleGet data k with
      | none => simpa using ih
      | some v =>
          by_cases hv : v ≠ "" ∧ pyStrip v ≠ "" <;> simp [hv, ih]

theorem bestParties_eq_amended (data : List (String × String)) :
    bestPartiesFromRow data = partiesAmendedSpec data := by
  cases data with
  | nil => rfl
  | cons a t =>
      unfold bestPartiesFromRow partiesAmendedSpec
      rw [firstTitleHitAux_eq (a :: t) titleKeys]
      rfl

end CourtApp

namespace CourtApp

/-! ### Claim theorems -/

/-- C1: for every case number present in the manual override table, the
resolver returns that override record verbatim, regardless of the
contents of the dataset index tables. -/
theorem c1_override_tier_wins (s : IndexState) (n : Nat) (r : Jval)
    (h : alFind OVERRIDE_CASES n = some r) :
    datasetLookupByCase s n = some r := by
  simp [datasetLookupByCase, h]

/-- An index state whose dataset index also maps case number 8152, used
to exercise the override tier against a conflicting dataset entry. -/
def shadowState : IndexState :=
  { rows := [((100, 0), ⟨100, 0, [("title", "Shadow vs Entry")], none⟩)],
    caseIndex := [(8152, (100, 0))],
    summary := [(100, 1)],
    total := 1 }

/-- C1 witness: case 8152 also has a dataset index entry, yet resolution
returns the override record, whose parties string is exactly the
author-supplied one. -/
theorem c1_override_tier_wins_witness :
    (alFind shadowState.caseIndex 8152).isSome = true ∧
    datasetLookupByCase shadowState 8152 = some override8152 ∧
    jGet override8152 "parties" = some (.jstr "Alice Sharma vs State of Odisha") :=
  ⟨rfl, c1_override_tier_wins shadowState 8152 override8152 rfl, rfl⟩

/-- C2: after a build over an ordered dataset list, the case index maps
the key code + i of any row i of a dataset to (code, i) whenever no
later-scanned dataset's sequential-assignment range covers that key;
entries are last-write-wins, so absence of later coverage is exactly what
lets a dataset's own entry survive (the dataset's own code is the i = 0
instance). -/
theorem c2_case_index_shape (s0 : IndexState) (pre post : List ParsedDataset)
    (d : ParsedDataset) (i : Nat) (hi : i < d.cells.length)
    (hpost : ∀ e ∈ post, ¬ coversKey e (d.code + i)) :
    alFind (loadNdapDatasets s0 (pre ++ d :: post)).caseIndex (d.code + i) =
      some (d.code, i) := by
  unfold loadNdapDatasets
  rw [List.foldl_append, List.foldl_cons,
    foldl_caseIndex_miss post _ _ hpost]
  exact processDataset_caseIndex_hit _ d i hi

/-- The concrete scenario dataset of the spec: NDAP_REPORT_100.csv with
three rows and a Year column. -/
def demoDataset : ParsedDataset := ⟨100, ["Year"], [["2001"], ["2002"], ["2003"]]⟩

/-- The index state built from the concrete scenario dataset. -/
def demoState : IndexState := loadNdapDatasets emptyIndexState [demoDataset]

/-- C2 witness: on the concrete scenario, the summary records 3 rows for
code 100, case number 100 resolves to row 0 and 102 to row 2, visible
through the rows' distinct Year values. -/
theorem c2_case_index_shape_witness :
    alFind demoState.summary 100 = some 3 ∧
    alFind demoState.caseIndex 100 = some (100, 0) ∧
    alFind demoState.caseIndex 102 = some (100, 2) ∧
    jGetOpt (datasetLookupByCase demoState 100) "filing_date" = some (.jstr "2001") ∧
    jGetOpt (datasetLookupByCase demoState 102) "filing_date" = some (.jstr "2003") := by
  refine ⟨rfl, ?case100, ?case102, rfl, rfl⟩
  case case100 =>
    exact c2_case_index_shape emptyIndexState [] [] demoDataset 0 (by decide) (by simp)
  case case102 =>
    exact c2_case_index_shape emptyIndexState [] [] demoDataset 2 (by decide) (by simp)

/-- C6: the index build is idempotent with respect to final state: a
second build over the same parsed datasets leaves exactly the state the
first build produced, because each build clears the tables and rebuilds
them from the input alone. -/
theorem c6_rebuild_idempotent (s : IndexState) (ds : List ParsedDataset) :
    loadNdapDatasets (loadNdapDatasets s ds) ds = loadNdapDatasets s ds := rfl

end CourtApp

namespace CourtApp

theorem ensureMinFields_get (fs : List (String × Jval)) (h : fs ≠ []) :
    jGet (ensureMinFields (.jobj fs)) "parties" =
      some ((alFind fs "parties").getD (.jstr "N/A")) ∧
    jGet (ensureMinFields (.jobj fs)) "filing_date" =
      some ((alFind fs "filing_date").getD (.jstr "N/A")) ∧
    jGet (ensureMinFields (.jobj fs)) "next_hearing" =
      some ((alFind fs "next_hearing").getD (.jstr "N/A")) ∧
    jGet (ensureMinFields (.jobj fs)) "status" =
      some ((alFind fs "status").getD (.jstr "N/A")) ∧
    jGet (ensureMinFields (.jobj fs)) "raw_source" =
      some ((alFind fs "raw_source").getD (.jobj [("url", .jstr "")])) := by
  rw [ensureMinFields_obj fs h]
  refine ⟨?_, ?_, ?_, ?_, ?_⟩ <;> simp only [jGet]
  · rw [alFind_alSetdefault_ne _ _ _ _ (by decide),
      alFind_alSetdefault_ne _ _ _ _ (by decide),
      alFind_alSetdefault_ne _ _ _ _ (by decide),
      alFind_alSetdefault_ne _ _ _ _ (by decide),
      alFind_alSetdefault_self]
  · rw [alFind_alSetdefault_ne _ _ _ _ (by decide),
      alFind_alSetdefault_ne _ _ _ _ (by decide),
      alFind_alSetdefault_ne _ _ _ _ (by decide),
      alFind_alSetdefault_self,
      alFind_alSetdefault_ne _ _ _ _ (by decide)]
  · rw [alFind_alSetdefault_ne _ _ _ _ (by decide),
      alFind_alSetdefault_ne _ _ _ _ (by decide),
      alFind_alSetdefault_self,
      alFind_alSetdefault_ne _ _ _ _ (by decide),
      alFind_alSetdefault_ne _ _ _ _ (by decide)]
  · rw [alFind_alSetdefault_ne _ _ _ _ (by decide),
      alFind_alSetdefault_self,
      alFind_alSetdefault_ne _ _ _ _ (by decide),
      alFind_alSetdefault_ne _ _ _ _ (by decide),
      alFind_alSetdefault_ne _ _ _ _ (by decide)]
  · rw [alFind_alSetdefault_self,
      alFind_alSetdefault_ne _ _ _ _ (by decide),
      alFind_alSetdefault_ne _ _ _ _ (by decide),
      alFind_alSetdefault_ne _ _ _ _ (by decide),
      alFind_alSetdefault_ne _ _ _ _ (by decide)]

/-- C3 (amended): the field-completion pass always yields a record whose
keys parties, filing_date, next_hearing, status and raw_source are
present; a non-dict or empty input is replaced by the server error record
(all five fields present and non-null, raw_source.url the empty string);
otherwise every key absent from the input is appended with its default
(the string N/A, or for raw_source an object with an empty url) while
keys already present keep their original values unchanged, even when the
value is null or a raw_source object lacking a url. -/
theorem c3_field_completion (v : Jval) :
    ((jGet (ensureMinFields v) "parties").isSome ∧
     (jGet (ensureMinFields v) "filing_date").isSome ∧
     (jGet (ensureMinFields v) "next_hearing").isSome ∧
     (jGet (ensureMinFields v) "status").isSome ∧
     (jGet (ensureMinFields v) "raw_source").isSome) ∧
    (jDictNonempty v = false →
      ensureMinFields v = asError "Empty response" "server") ∧
    (∀ fs, v = .jobj fs → fs ≠ [] →
      jGet (ensureMinFields v) "parties" =
        some ((alFind fs "parties").getD (.jstr "N/A")) ∧
      jGet (ensureMinFields v) "filing_date" =
        some ((alFind fs "filing_date").getD (.jstr "N/A")) ∧
      jGet (ensureMinFields v) "next_hearing" =
        some ((alFind fs "next_hearing").getD (.jstr "N/A")) ∧
      jGet (ensureMinFields v) "status" =
        some ((alFind fs "status").getD (.jstr "N/A")) ∧
      jGet (ensureMinFields v) "raw_source" =
        some ((alFind fs "raw_source").getD (.jobj [("url", .jstr "")]))) := by
  by_cases hv : jDictNonempty v = true
  · obtain ⟨fs, rfl⟩ : ∃ fs, v = Jval.jobj fs := by
      cases v <;> simp [jDictNonempty] at hv
      exact ⟨_, rfl⟩
    have hne : fs ≠ [] := by simpa [jDictNonempty] using hv
    have H := ensureMinFields_get fs hne
    refine ⟨⟨?_, ?_, ?_, ?_, ?_⟩, ?_, ?_⟩
    · rw [H.1]; rfl
    · rw [H.2.1]; rfl
    · rw [H.2.2.1]; rfl
    · rw [H.2.2.2.1]; rfl
    · rw [H.2.2.2.2]; rfl
    · intro hfalse; rw [hv] at hfalse; cases hfalse
    · intro fs' heq hne'
      have hfs : fs' = fs := by injection heq with h2; exact h2.symm
      subst hfs
      exact H
  · have hv' : jDictNonempty v = false := by simpa using hv
    have he : ensureMinFields v = asError "Empty response" "server" := by
      simp only [ensureMinFields, hv']
      rfl
    refine ⟨⟨?_, ?_, ?_, ?_, ?_⟩, fun _ => he, ?_⟩
    · rw [he]; rfl
    · rw [he]; rfl
    · rw [he]; rfl
    · rw [he]; rfl
    · rw [he]; rfl
    · intro fs heq hne
      subst heq
      simp [jDictNonempty] at hv'
      exact absurd hv' hne

/-- C3 witness: a one-field record gets the four missing canonical fields
and the raw_source default appended while its own field survives. -/
theorem c3_field_completion_witness :
    jGet (ensureMinFields (.jobj [("status", .jstr "Listed")])) "parties" =
      some (.jstr "N/A") ∧
    jGet (ensureMinFields (.jobj [("status", .jstr "Listed")])) "status" =
      some (.jstr "Listed") ∧
    jGet (ensureMinFields (.jobj [("status", .jstr "Listed")])) "raw_source" =
      some (.jobj [("url", .jstr "")]) := by
  have h := (c3_field_completion (.jobj [("status", .jstr "Listed")])).2.2 _ rfl (by simp)
  exact ⟨h.1, h.2.2.2.1, h.2.2.2.2⟩

/-- C3 counterexample: a record carrying an explicit null parties value
and a raw_source object without a url keeps both defects after the
field-completion pass, so parties is not non-null and raw_source.url is
not present, contrary to the claim as stated. -/
theorem c3_counterexample :
    jGet (ensureMinFields (.jobj [("parties", .jnull), ("raw_source", .jobj [])]))
      "parties" = some .jnull ∧
    jGetOpt (jGet (ensureMinFields (.jobj [("parties", .jnull), ("raw_source", .jobj [])]))
      "raw_source") "url" = none :=
  ⟨rfl, rfl⟩

theorem deriveRecord_status (code idx : Nat) (data : List (String × String))
    (yearCol : Option String) :
    jGet (deriveRecord code idx data yearCol) "status" =
      some (.jstr (pyOrStr (alFind data "status") "From NDAP Dataset")) := rfl

/-- C4 (amended): a dataset-derived record's status equals the value of
the row's literal status column when that column is present with a
non-empty value, and equals the fixed string From NDAP Dataset when the
column is absent or its cell is empty (an empty cell, the reading of a
missing value, therefore also falls back to the fixed string). -/
theorem c4_status_field (s : IndexState) (n code idx : Nat) (row : RowRec)
    (hov : alFind OVERRIDE_CASES n = none)
    (hidx : alFind s.caseIndex n = some (code, idx))
    (hrow : alFind s.rows (code, idx) = some row) :
    (∀ v, alFind row.data "status" = some v → v ≠ "" →
      jGetOpt (datasetLookupByCase s n) "status" = some (.jstr v)) ∧
    ((alFind row.data "status" = none ∨ alFind row.data "status" = some "") →
      jGetOpt (datasetLookupByCase s n) "status" =
        some (.jstr "From NDAP Dataset")) := by
  have hd : datasetLookupByCase s n =
      some (deriveRecord code idx row.data row.year_col) := by
    simp [datasetLookupByCase, hov, hidx, hrow]
  constructor
  · intro v hv hvne
    rw [hd]
    simp [jGetOpt, deriveRecord_status, hv, pyOrStr, hvne]
  · intro hcase
    rw [hd]
    rcases hcase with hn | he
    · simp [jGetOpt, deriveRecord_status, hn, pyOrStr]
    · simp [jGetOpt, deriveRecord_status, he, pyOrStr]

/-- An index state built from a dataset whose single row carries a
non-empty status cell. -/
def statusState : IndexState :=
  loadNdapDatasets emptyIndexState [⟨100, ["status"], [["Dismissed"]]⟩]

/-- C4 witness: a present non-empty status cell is passed through into
the derived record. -/
theorem c4_status_field_witness :
    jGetOpt (datasetLookupByCase statusState 100) "status" =
      some (.jstr "Dismissed") := by
  have h := c4_status_field statusState 100 100 0
    ⟨100, 0, [("status", "Dismissed")], none⟩ rfl rfl rfl
  exact h.1 "Dismissed" rfl (by decide)

/-- An index state built from a dataset whose single row has a status
column with an empty cell (the reading of a missing value). -/
def emptyStatusState : IndexState :=
  loadNdapDatasets emptyIndexState [⟨100, ["status"], [[""]]⟩]

/-- C4 counterexample: the status column is present and its cell reads as
the empty string, yet the derived record's status is the fixed fallback
string rather than that empty value, contrary to the claim as stated. -/
theorem c4_counterexample :
    alFind emptyStatusState.rows (100, 0) =
      some ⟨100, 0, [("status", "")], none⟩ ∧
    jGetOpt (datasetLookupByCase emptyStatusState 100) "status" =
      some (.jstr "From NDAP Dataset") ∧
    Jval.jstr "From NDAP Dataset" ≠ Jval.jstr "" :=
  ⟨rfl, rfl, by intro h; injection h with h2; exact absurd h2 (by decide)⟩

/-- C5 (amended): a dataset-derived record's parties field follows the
amended fixed-priority heuristic: title-like names through their case
variants with blank values passed over, else petitioner/respondent with
word substitution for a falsy side, else plaintiff/defendant likewise,
else the placeholder built from the dataset code and row index. -/
theorem c5_parties_heuristic (code idx : Nat) (data : List (String × String))
    (yearCol : Option String) :
    jGet (deriveRecord code idx data yearCol) "parties" =
      some (.jstr ((partiesAmendedSpec data).getD
        ("Case " ++ toString code ++ "-" ++ toString idx))) := by
  have h : jGet (deriveRecord code idx data yearCol) "parties" =
      some (.jstr ((bestPartiesFromRow data).getD
        ("Case " ++ toString code ++ "-" ++ toString idx))) := rfl
  rw [h, bestParties_eq_amended]

/-- An index state built from a dataset with a whitespace-only title cell
and a non-empty Title cell. -/
def blankTitleState : IndexState :=
  loadNdapDatasets emptyIndexState [⟨100, ["title", "Title"], [["  ", "X"]]⟩]

/-- C5 counterexample: the title column holds the non-empty (but
whitespace-only) value, so the claim's literal first-non-empty rule picks
it, yet the code's record falls through to the placeholder, contrary to
the claim as stated. -/
theorem c5_counterexample :
    alFind blankTitleState.rows (100, 0) =
      some ⟨100, 0, [("title", "  "), ("Title", "X")], none⟩ ∧
    partiesClaimedSpec [("title", "  "), ("Title", "X")] = some "  " ∧
    jGetOpt (datasetLookupByCase blankTitleState 100) "parties" =
      some (.jstr "Case 100-0") ∧
    Jval.jstr "Case 100-0" ≠ Jval.jstr "  " :=
  ⟨rfl, rfl, rfl, by intro h; injection h with h2; exact absurd h2 (by decide)⟩

end CourtApp

namespace CourtApp

/-- C7: when no resolution tier matches and the live-fetch path is
unavailable, raises, or returns a non-dict or empty value, the lookup
response's parsed record is error-shaped: status is the string Error and
an error object with where and message fields is attached; the failure is
data in the response, never a propagated exception (the selection function
is total). -/
theorem c7_live_failure_error_record (s : IndexState) (q : CaseQuery) (f : FetchOutcome)
    (hmiss : datasetLookupByCase s q.case_number = none)
    (hbad : f = .unavailable ∨ (∃ m, f = .raises m) ∨
      (∃ v, f = .ok v ∧ jDictNonempty v = false)) :
    jGetOpt (jGet (lookupCase s false f q) "parsed") "status" = some (.jstr "Error") ∧
    ∃ whr msg, jGetOpt (jGet (lookupCase s false f q) "parsed") "error" =
      some (.jobj [("where", .jstr whr), ("message", .jstr msg)]) := by
  have hsel : ∃ m w, (resolveForLookup s false f q).1 = asError m w := by
    rcases hbad with h | ⟨m, h⟩ | ⟨v, h, hv⟩ <;> subst h
    · exact ⟨"scraper not available", "import",
        by simp [resolveForLookup, hmiss, optJTruthy]⟩
    · exact ⟨m, "exception", by simp [resolveForLookup, hmiss, optJTruthy]⟩
    · exact ⟨"Unexpected scraper response", "scraper",
        by simp [resolveForLookup, hmiss, optJTruthy, hv]⟩
  obtain ⟨m, w, hsel⟩ := hsel
  have hparsed : jGet (lookupCase s false f q) "parsed" =
      some (ensureMinFields (asError m w)) := by
    simp [lookupCase, jGet, alFind, hsel]
  have hemf : ensureMinFields (asError m w) = asError m w := rfl
  rw [hparsed, hemf]
  exact ⟨rfl, w, m, rfl⟩

/-- C7 witness: the empty index, a concrete query and an unavailable
scraper produce the in-band error record. -/
theorem c7_live_failure_error_record_witness :
    jGetOpt (jGet (lookupCase emptyIndexState false .unavailable
      ⟨"Civil", 1, 2023, "District"⟩) "parsed") "status" = some (.jstr "Error") ∧
    ∃ whr msg, jGetOpt (jGet (lookupCase emptyIndexState false .unavailable
      ⟨"Civil", 1, 2023, "District"⟩) "parsed") "error" =
      some (.jobj [("where", .jstr whr), ("message", .jstr msg)]) :=
  c7_live_failure_error_record emptyIndexState ⟨"Civil", 1, 2023, "District"⟩
    .unavailable rfl (Or.inl rfl)

/-- C8: every lookup response carries a source tag that is one of the
strings dataset, mock or live; it is dataset exactly when the
override-then-dataset resolver produced the record, mock exactly when the
resolver found nothing and mock mode is on, and live exactly when the
resolver found nothing and mock mode is off — the tiers in their fixed
priority order. -/
theorem c8_source_tag (s : IndexState) (useMock : Bool) (f : FetchOutcome)
    (q : CaseQuery) :
    ∃ t, jGet (lookupCase s useMock f q) "source" = some (.jstr t) ∧
      (t = "dataset" ∨ t = "mock" ∨ t = "live") ∧
      (t = "dataset" ↔ optJTruthy (datasetLookupByCase s q.case_number) = true) ∧
      (t = "mock" ↔ (optJTruthy (datasetLookupByCase s q.case_number) = false ∧
        useMock = true)) ∧
      (t = "live" ↔ (optJTruthy (datasetLookupByCase s q.case_number) = false ∧
        useMock = false)) := by
  by_cases hd : optJTruthy (datasetLookupByCase s q.case_number) = true
  · refine ⟨"dataset", ?_, Or.inl rfl, ?_, ?_, ?_⟩
    · simp [lookupCase, resolveForLookup, hd, jGet, alFind]
    · simp [hd]
    · simp [hd]
    · simp [hd]
  · have hd' : optJTruthy (datasetLookupByCase s q.case_number) = false := by
      simpa using hd
    by_cases hm : useMock
    · refine ⟨"mock", ?_, Or.inr (Or.inl rfl), ?_, ?_, ?_⟩
      · simp [lookupCase, resolveForLookup, hd', hm, jGet, alFind]
      · simp [hd']
      · simp [hd', hm]
      · simp [hm]
    · refine ⟨"live", ?_, Or.inr (Or.inr rfl), ?_, ?_, ?_⟩
      · cases f <;> simp [lookupCase, resolveForLookup, hd', hm, jGet, alFind]
      · simp [hd']
      · simp [hm]
      · simp [hd', hm]

/-- C8 witness: the tag characterization instantiated on the empty
index with mock mode on and an unavailable scraper. -/
theorem c8_source_tag_witness :
    ∃ t, jGet (lookupCase emptyIndexState true .unavailable
        ⟨"Civil", 1, 2023, "District"⟩) "source" = some (.jstr t) ∧
      (t = "dataset" ∨ t = "mock" ∨ t = "live") ∧
      (t = "dataset" ↔ optJTruthy (datasetLookupByCase emptyIndexState 1) = true) ∧
      (t = "mock" ↔ (optJTruthy (datasetLookupByCase emptyIndexState 1) = false ∧
        true = true)) ∧
      (t = "live" ↔ (optJTruthy (datasetLookupByCase emptyIndexState 1) = false ∧
        true = false)) :=
  c8_source_tag emptyIndexState true .unavailable ⟨"Civil", 1, 2023, "District"⟩

/-- C9 (amended): the build's return value is the total row count over
all parsed non-empty datasets, and it equals the sum of the per-code
summary values whenever the non-empty datasets' codes are pairwise
distinct; a repeated code keeps only the last dataset's count in the
summary while the return value counts every scanned dataset. -/
theorem c9_row_count (s : IndexState) (ds : List ParsedDataset) :
    (loadNdapDatasets s ds).total = rowsCount ds ∧
    ((nonemptyCodes ds).Nodup →
      sumVals (loadNdapDatasets s ds).summary = (loadNdapDatasets s ds).total) := by
  constructor
  · unfold loadNdapDatasets
    rw [foldl_total]
    simp
  · intro h
    have hfresh : ∀ c ∈ nonemptyCodes ds,
        alFind (⟨[], [], [], 0⟩ : IndexState).summary c = none := fun c _ => rfl
    unfold loadNdapDatasets
    rw [foldl_summary_sum _ _ h hfresh, foldl_total]
    rfl

/-- C9 witness: on the concrete three-row dataset the return value is 3
and matches the summary sum. -/
theorem c9_row_count_witness :
    (loadNdapDatasets emptyIndexState [demoDataset]).total = 3 ∧
    sumVals (loadNdapDatasets emptyIndexState [demoDataset]).summary = 3 := by
  have h := c9_row_count emptyIndexState [demoDataset]
  refine ⟨h.1, ?_⟩
  rw [h.2 (by decide), h.1]
  rfl

/-- C9 counterexample: two parsed datasets sharing code 100 (as when the
same report file name occurs in two scanned directories) make the return
value 5 while the summary, keyed by code, keeps only the last dataset's
count 2, so the claimed equality fails. -/
theorem c9_counterexample :
    (loadNdapDatasets emptyIndexState
      [⟨100, ["Year"], [["a"], ["b"], ["c"]]⟩, ⟨100, ["Year"], [["d"], ["e"]]⟩]).total = 5 ∧
    sumVals (loadNdapDatasets emptyIndexState
      [⟨100, ["Year"], [["a"], ["b"], ["c"]]⟩, ⟨100, ["Year"], [["d"], ["e"]]⟩]).summary = 2 ∧
    (loadNdapDatasets emptyIndexState
      [⟨100, ["Year"], [["a"], ["b"], ["c"]]⟩, ⟨100, ["Year"], [["d"], ["e"]]⟩]).total ≠
    sumVals (loadNdapDatasets emptyIndexState
      [⟨100, ["Year"], [["a"], ["b"], ["c"]]⟩, ⟨100, ["Year"], [["d"], ["e"]]⟩]).summary :=
  ⟨rfl, rfl, by decide⟩

/-- C10: when neither override nor dataset matches and mock mode is on,
the download handler regenerates the judgment document from the fixed
record with parties CIVIL Demo: Alice vs Bob, filing date 2023-07-18,
next hearing 2025-10-10 and status Listed, with no dependence on any
lookup request's case_type, whereas the lookup endpoint's mock record
interpolates the request's case_type into its parties string. -/
theorem c10_dl_mock_record (s : IndexState) (num : Nat)
    (hmiss : datasetLookupByCase s num = none) :
    dlJudgmentDetails s true num =
      .jobj [("parties", .jstr "CIVIL Demo: Alice vs Bob"),
             ("filing_date", .jstr "2023-07-18"),
             ("next_hearing", .jstr "2025-10-10"),
             ("status", .jstr "Listed"),
             ("raw_source", .jobj [("url", .jstr "https://services.ecourts.gov.in")])] ∧
    (∀ (f : FetchOutcome) (q : CaseQuery),
      datasetLookupByCase s q.case_number = none →
      jGet (resolveForLookup s true f q).1 "parties" =
        some (.jstr (q.case_type ++ " Demo: Alice vs Bob"))) := by
  constructor
  · simp [dlJudgmentDetails, hmiss, optJTruthy]
  · intro f q hq
    simp [resolveForLookup, hq, optJTruthy, mockRecord, jGet, alFind]

/-- C10 witness: on the empty index with mock mode on, the download
handler's record is the fixed CIVIL one while a lookup with case_type
Civil gets the interpolated parties string. -/
theorem c10_dl_mock_record_witness :
    dlJudgmentDetails emptyIndexState true 1 =
      .jobj [("parties", .jstr "CIVIL Demo: Alice vs Bob"),
             ("filing_date", .jstr "2023-07-18"),
             ("next_hearing", .jstr "2025-10-10"),
             ("status", .jstr "Listed"),
             ("raw_source", .jobj [("url", .jstr "https://services.ecourts.gov.in")])] ∧
    jGet (resolveForLookup emptyIndexState true .unavailable
      ⟨"Civil", 1, 2023, "District"⟩).1 "parties" =
      some (.jstr "Civil Demo: Alice vs Bob") := by
  have h := c10_dl_mock_record emptyIndexState 1 rfl
  exact ⟨h.1, h.2 .unavailable ⟨"Civil", 1, 2023, "District"⟩ rfl⟩

end CourtApp
